import Mathlib

/-!
Verification development for the Excel-to-DAT conversion tool (`src/app.py`).

The Python program reads a workbook with three logical tables (task identity,
business catalog, validation results) plus per-form sample sheets, joins
validation rows against sample rows through a JSON payload, and emits
fixed-delimiter DAT records together with a five-line LOG file per form.

The shallow embedding below models:
  * spreadsheet cells as `Option String` (`none` = pandas NaN; the program
    reads every sheet with `dtype=str`, so present cells are strings),
  * data frames as a list of column names plus a list of rows,
  * Python `str.strip` over the ASCII whitespace characters,
  * the JSON decoder (`json.loads`) as an explicit parameter of the
    record builder, exactly like the digest: the claim theorems hold for
    every decoder, in particular for the true `json.loads`.  An executable
    reference decoder `parseJson` instantiates it on concrete runs; it
    follows the `json.loads` grammar, carrying a fractional or exponent
    number as `jfloat` with the nonzero-ness of its decimal value and the
    literal's text — the program observes a float only through its
    truthiness and its `str()`, and no theorem depends on the IEEE-754
    rounding, under/overflow or shortest-round-trip rendering of the
    Python float,
  * the MD5 digest as an abstract parameter (cryptographic digest of bytes).

Every definition is translated from the source program; theorems settle the
frozen claims about it.
-/

/-- A cell of a sheet read with `dtype=str`: `none` models pandas `NaN`. -/
abbrev Cell := Option String

/-- ASCII whitespace characters stripped by Python `str.strip()`. -/
def pySpace (c : Char) : Bool :=
  c = ' ' || c = '\t' || c = '\n' || c = '\r' || c = '\x0b' || c = '\x0c'

/-- Strip leading and trailing whitespace from a character list (model of
Python `str.strip()` at the character level). -/
def stripList (l : List Char) : List Char :=
  ((l.dropWhile pySpace).reverse.dropWhile pySpace).reverse

/-- Python `s.strip()` on strings. -/
def pyStrip (s : String) : String := ⟨stripList s.data⟩

/-- Python `s.replace "-" ""`: removal of every `'-'` character. -/
def removeDashes (s : String) : String := ⟨s.data.filter (fun c => !(c = '-'))⟩

/-- `clean_cell_value` (app.py lines 18-22): missing/NaN or empty string maps
to `""`; any other value is stringified and stripped. -/
def clean_cell_value : Cell → String
  | none => ""
  | some s => if s = "" then "" else pyStrip s

theorem data_append (a b : String) : (a ++ b).data = a.data ++ b.data := rfl

theorem stripList_split (l : List Char) :
    ∃ pre suf, l = pre ++ stripList l ++ suf ∧
      (∀ c ∈ pre, pySpace c = true) ∧ (∀ c ∈ suf, pySpace c = true) := by
  refine ⟨l.takeWhile pySpace,
    ((l.dropWhile pySpace).reverse.takeWhile pySpace).reverse, ?_, ?_, ?_⟩
  · have hm : l.dropWhile pySpace =
        stripList l ++ ((l.dropWhile pySpace).reverse.takeWhile pySpace).reverse := by
      unfold stripList
      conv_lhs =>
        rw [← List.reverse_reverse (l.dropWhile pySpace)]
        rw [← List.takeWhile_append_dropWhile (p := pySpace)
          (l := (l.dropWhile pySpace).reverse)]
      rw [List.reverse_append]
    calc l = l.takeWhile pySpace ++ l.dropWhile pySpace :=
          (List.takeWhile_append_dropWhile (p := pySpace) (l := l)).symm
      _ = l.takeWhile pySpace ++ (stripList l ++
            ((l.dropWhile pySpace).reverse.takeWhile pySpace).reverse) := by
          conv_lhs => rw [hm]
      _ = l.takeWhile pySpace ++ stripList l ++
            ((l.dropWhile pySpace).reverse.takeWhile pySpace).reverse :=
          (List.append_assoc _ _ _).symm
  · intro c hc
    exact List.mem_takeWhile_imp hc
  · intro c hc
    rw [List.mem_reverse] at hc
    exact List.mem_takeWhile_imp hc

theorem stripList_sandwich (l : List Char) :
    ∃ pre suf, l = pre ++ stripList l ++ suf ∧
      pre.all pySpace = true ∧ suf.all pySpace = true := by
  obtain ⟨pre, suf, h, hp, hs⟩ := stripList_split l
  exact ⟨pre, suf, h, List.all_eq_true.mpr hp, List.all_eq_true.mpr hs⟩

example : clean_cell_value (some "  a b  ") = "a b" := by decide
example : clean_cell_value none = "" := by decide
example : clean_cell_value (some "   ") = "" := by decide
example : pyStrip " - - " = "- -" := by decide
example : removeDashes "- -" = " " := by decide

/-! ## JSON values and the model of `json.loads` -/

/-- Parsed JSON values as produced by Python `json.loads`.  Objects keep
their key/value pairs in insertion order (Python dict semantics).  An
integer literal is a Python `int` (`jnum`); a fractional or exponent
literal (or `NaN`/`Infinity`) is a Python `float`, which the program
observes only through its truthiness and its `str()` form — `jfloat`
carries exactly those two observations. -/
inductive JsonVal where
  | jnull : JsonVal
  | jbool : Bool → JsonVal
  | jnum : Int → JsonVal
  | jfloat : Bool → String → JsonVal
  | jstr : String → JsonVal
  | jarr : List JsonVal → JsonVal
  | jobj : List (String × JsonVal) → JsonVal

/-- Python truthiness of a decoded JSON value (`if not json_obj: ...`). -/
def pyTruthy : JsonVal → Bool
  | .jnull => false
  | .jbool b => b
  | .jnum n => n != 0
  | .jfloat b _ => b
  | .jstr s => s != ""
  | .jarr xs => !xs.isEmpty
  | .jobj kvs => !kvs.isEmpty

/-- Whether the value is a JSON object (a Python `dict`, the only values
with a `.keys()` method). -/
def JsonVal.isObj : JsonVal → Bool
  | .jobj _ => true
  | _ => false

/-- Generic string join with a separator (Python `sep.join(...)`). -/
def joinWith (sep : String) : List String → String
  | [] => ""
  | [x] => x
  | x :: y :: ys => x ++ sep ++ joinWith sep (y :: ys)

mutual

/-- Python `repr()` of a decoded JSON value (used by `str()` inside
containers). -/
def pyReprVal : JsonVal → String
  | .jnull => "None"
  | .jbool true => "True"
  | .jbool false => "False"
  | .jnum n => toString n
  | .jfloat _ s => s
  | .jstr s => "'" ++ s ++ "'"
  | .jarr xs => "[" ++ joinWith ", " (pyReprList xs) ++ "]"
  | .jobj kvs => "\x7b" ++ joinWith ", " (pyReprPairs kvs) ++ "\x7d"

/-- `repr` of each element of a JSON array. -/
def pyReprList : List JsonVal → List String
  | [] => []
  | x :: xs => pyReprVal x :: pyReprList xs

/-- `repr` of each `key: value` pair of a JSON object. -/
def pyReprPairs : List (String × JsonVal) → List String
  | [] => []
  | kv :: kvs => ("'" ++ kv.1 ++ "': " ++ pyReprVal kv.2) :: pyReprPairs kvs

end

/-- Python `str()` of a decoded JSON value (`str(json_value[0])`). -/
def pyStrVal : JsonVal → String
  | .jstr s => s
  | v => pyReprVal v

/-- Insert a key/value pair with Python dict semantics: a duplicate key
keeps its original position but takes the new value. -/
def insertKV (kvs : List (String × JsonVal)) (k : String) (v : JsonVal) :
    List (String × JsonVal) :=
  if kvs.any (fun p => p.1 == k) then
    kvs.map (fun p => if p.1 == k then (k, v) else p)
  else
    kvs ++ [(k, v)]

/-- Skip JSON insignificant whitespace. -/
def jSkipWs (s : List Char) : List Char :=
  s.dropWhile (fun c => c = ' ' || c = '\t' || c = '\n' || c = '\r')

/-- Hexadecimal digit value, if any. -/
def hexVal (c : Char) : Option Nat :=
  if '0' ≤ c ∧ c ≤ '9' then some (c.toNat - '0'.toNat)
  else if 'a' ≤ c ∧ c ≤ 'f' then some (c.toNat - 'a'.toNat + 10)
  else if 'A' ≤ c ∧ c ≤ 'F' then some (c.toNat - 'A'.toNat + 10)
  else none

/-- Read the body of a JSON string literal (after the opening quote),
returning the decoded characters and the rest of the input. -/
def jReadStr : Nat → List Char → Option (List Char × List Char)
  | 0, _ => none
  | _, [] => none
  | fuel + 1, c :: rest =>
    if c = '"' then some ([], rest)
    else if c = '\\' then
      match rest with
      | [] => none
      | e :: r2 =>
        if e = 'u' then
          match r2 with
          | h1 :: h2 :: h3 :: h4 :: r3 =>
            match hexVal h1, hexVal h2, hexVal h3, hexVal h4 with
            | some a, some b, some cc, some d =>
              (jReadStr fuel r3).map
                (fun p => (Char.ofNat (((a * 16 + b) * 16 + cc) * 16 + d) :: p.1, p.2))
            | _, _, _, _ => none
          | _ => none
        else
          let dec : Option Char :=
            if e = '"' then some '"'
            else if e = '\\' then some '\\'
            else if e = '/' then some '/'
            else if e = 'n' then some '\n'
            else if e = 't' then some '\t'
            else if e = 'r' then some '\r'
            else if e = 'b' then some '\x08'
            else if e = 'f' then some '\x0c'
            else none
          match dec with
          | none => none
          | some d => (jReadStr fuel r2).map (fun p => (d :: p.1, p.2))
    else if c.toNat < 0x20 then none
    else (jReadStr fuel rest).map (fun p => (c :: p.1, p.2))

/-- The value of a run of decimal digits. -/
def digitsToNat (ds : List Char) : Nat :=
  ds.foldl (fun n c => n * 10 + (c.toNat - '0'.toNat)) 0

/-- The integer part of a JSON number: `0`, or a nonzero digit followed by
digits — `json.loads` rejects leading zeros. -/
def jReadIntDigits : List Char → Option (List Char × List Char)
  | '0' :: rest => some (['0'], rest)
  | c :: rest =>
    if c.isDigit then
      some (c :: rest.takeWhile (fun d => d.isDigit),
        rest.dropWhile (fun d => d.isDigit))
    else none
  | [] => none

/-- The optional fraction part: a `.` must be followed by at least one
digit; no `.` means no fraction. -/
def jReadFrac : List Char → Option (List Char × List Char)
  | '.' :: r =>
    let ds := r.takeWhile (fun d => d.isDigit)
    if ds.isEmpty then none
    else some (ds, r.dropWhile (fun d => d.isDigit))
  | s => some ([], s)

/-- The optional exponent part: `e`/`E`, an optional sign, and at least
one digit.  Returns whether an exponent was present. -/
def jReadExp : List Char → Option (Bool × List Char)
  | c :: r =>
    if c = 'e' || c = 'E' then
      let r2 := match r with
        | '+' :: rr => rr
        | '-' :: rr => rr
        | _ => r
      let ds := r2.takeWhile (fun d => d.isDigit)
      if ds.isEmpty then none
      else some (true, r2.dropWhile (fun d => d.isDigit))
    else some (false, c :: r)
  | [] => some (false, [])

/-- Read a JSON number literal with the grammar of `json.loads`.  An
integer literal yields a Python `int` (`jnum`); a literal with a fraction
or exponent yields a Python `float`, carried as `jfloat` with the
nonzero-ness of its decimal value (its truthiness, up to IEEE-754
under/overflow, which is not modelled) and the literal's text (its
`str()`, up to the shortest-round-trip re-rendering, which is not
modelled either; no theorem depends on these). -/
def jReadNum (s : List Char) : Option (JsonVal × List Char) :=
  let core := fun (s1 : List Char) (neg : Bool) =>
    match jReadIntDigits s1 with
    | none => none
    | some (ip, r1) =>
      match jReadFrac r1 with
      | none => none
      | some (fp, r2) =>
        match jReadExp r2 with
        | none => none
        | some (hasExp, r3) =>
          if fp.isEmpty && !hasExp then
            let n : Int := Int.ofNat (digitsToNat ip)
            some (JsonVal.jnum (if neg then -n else n), r3)
          else
            some (JsonVal.jfloat ((ip ++ fp).any (fun d => !(d = '0')))
              ⟨s.take (s.length - r3.length)⟩, r3)
  match s with
  | '-' :: r => core r true
  | _ => core s false

mutual

/-- Read one JSON value. -/
def jReadVal : Nat → List Char → Option (JsonVal × List Char)
  | 0, _ => none
  | fuel + 1, s =>
    match jSkipWs s with
    | [] => none
    | c :: rest =>
      if c = 'n' then
        match rest with
        | 'u' :: 'l' :: 'l' :: r => some (.jnull, r)
        | _ => none
      else if c = 't' then
        match rest with
        | 'r' :: 'u' :: 'e' :: r => some (.jbool true, r)
        | _ => none
      else if c = 'f' then
        match rest with
        | 'a' :: 'l' :: 's' :: 'e' :: r => some (.jbool false, r)
        | _ => none
      else if c = '"' then
        (jReadStr (rest.length + 1) rest).map (fun p => (.jstr ⟨p.1⟩, p.2))
      else if c = '[' then
        match jSkipWs rest with
        | ']' :: r => some (.jarr [], r)
        | r2 => (jReadElems fuel r2).map (fun p => (.jarr p.1, p.2))
      else if c = '\x7b' then
        match jSkipWs rest with
        | '\x7d' :: r => some (.jobj [], r)
        | r2 => (jReadMembers fuel [] r2).map (fun p => (.jobj p.1, p.2))
      else if c = 'N' then
        match rest with
        | 'a' :: 'N' :: r => some (.jfloat true "nan", r)
        | _ => none
      else if c = 'I' then
        match rest with
        | 'n' :: 'f' :: 'i' :: 'n' :: 'i' :: 't' :: 'y' :: r =>
          some (.jfloat true "inf", r)
        | _ => none
      else if c = '-' then
        match rest with
        | 'I' :: 'n' :: 'f' :: 'i' :: 'n' :: 'i' :: 't' :: 'y' :: r =>
          some (.jfloat true "-inf", r)
        | _ => jReadNum (c :: rest)
      else jReadNum (c :: rest)

/-- Read the elements of a JSON array (at least one), up to and including
the closing bracket. -/
def jReadElems : Nat → List Char → Option (List JsonVal × List Char)
  | 0, _ => none
  | fuel + 1, s =>
    match jReadVal fuel s with
    | none => none
    | some (v, r) =>
      match jSkipWs r with
      | ',' :: r2 => (jReadElems fuel r2).map (fun p => (v :: p.1, p.2))
      | ']' :: r2 => some ([v], r2)
      | _ => none

/-- Read the members of a JSON object (at least one), up to and including
the closing brace, accumulating pairs with Python dict semantics. -/
def jReadMembers : Nat → List (String × JsonVal) → List Char →
    Option (List (String × JsonVal) × List Char)
  | 0, _, _ => none
  | fuel + 1, acc, s =>
    match jSkipWs s with
    | '"' :: rest =>
      match jReadStr (rest.length + 1) rest with
      | none => none
      | some (k, r) =>
        match jSkipWs r with
        | ':' :: r2 =>
          match jReadVal fuel r2 with
          | none => none
          | some (v, r3) =>
            let acc2 := insertKV acc ⟨k⟩ v
            match jSkipWs r3 with
            | ',' :: r4 => jReadMembers fuel acc2 r4
            | '\x7d' :: r4 => some (acc2, r4)
            | _ => none
        | _ => none
    | _ => none

end

/-- The reference decoder for Python `json.loads` on a string: decode one
JSON value and require only whitespace to remain.  It instantiates the
decoder parameter of the record builder on concrete runs; the claim
theorems themselves quantify over the decoder. -/
def parseJson (s : String) : Option JsonVal :=
  match jReadVal (2 * s.data.length + 2) s.data with
  | none => none
  | some (v, rest) => if (jSkipWs rest).isEmpty then some v else none

example : parseJson "5" = some (.jnum 5) := rfl
example : parseJson "\x7b\"k\":[\"3\"]\x7d" =
    some (.jobj [("k", .jarr [.jstr "3"])]) := rfl
example : parseJson "\x7b\"rows\": [3, -2], \"x\": null\x7d" =
    some (.jobj [("rows", .jarr [.jnum 3, .jnum (-2)]), ("x", .jnull)]) := rfl
example : parseJson "\x7bnot json" = none := rfl
example : parseJson "" = none := rfl
example : parseJson " \x7b\x7d " = some (.jobj []) := rfl
example : parseJson "[]" = some (.jarr []) := rfl
example : parseJson "true" = some (.jbool true) := rfl
example : parseJson "1.5" = some (.jfloat true "1.5") := rfl
example : parseJson "\x7b\"k\":[1.5]\x7d" =
    some (.jobj [("k", .jarr [.jfloat true "1.5"])]) := rfl
example : parseJson "0.0" = some (.jfloat false "0.0") := rfl
example : parseJson "-0.0e3" = some (.jfloat false "-0.0e3") := rfl
example : parseJson "05" = none := rfl
example : parseJson "0" = some (.jnum 0) := rfl
example : parseJson "NaN" = some (.jfloat true "nan") := rfl
example : parseJson "-Infinity" = some (.jfloat true "-inf") := rfl
example : parseJson "\"a\nb\"" = none := rfl
example : pyStrVal (.jfloat true "1.5") = "1.5" := rfl
example : pyStrVal (.jnum 3) = "3" := rfl
example : pyStrVal (.jstr "3") = "3" := rfl
example : pyStrVal (.jarr [.jnum 1, .jstr "a"]) = "[1, 'a']" := rfl

/-! ## Data frames and the workbook -/

/-- A table as produced by `pd.read_excel(..., header=1, dtype=str)`:
the column labels of the header row and the data rows below it. -/
structure Frame where
  cols : List String
  rows : List (List Cell)

/-- The workbook: named sheets.  `pd.ExcelFile` exposes each sheet by name. -/
abbrev Workbook := List (String × Frame)

/-- Names of the sheets of a workbook (`excel_file.sheet_names`). -/
def sheetNames (wb : Workbook) : List String := wb.map (fun p => p.1)

/-- Reading a sheet by name; `none` models the exception raised by
`pd.read_excel` when the sheet is absent. -/
def lookupSheet (wb : Workbook) (name : String) : Option Frame :=
  (wb.find? (fun p => p.1 == name)).map (fun p => p.2)

/-- Index of a named column in a frame. -/
def colIdx (df : Frame) (name : String) : Option Nat :=
  df.cols.findIdx? (fun c => c == name)

/-- The cell of `row` under the column labelled `name` (label access
`row[name]` on a pandas Series). -/
def cellByName (df : Frame) (row : List Cell) (name : String) : Cell :=
  match colIdx df name with
  | none => none
  | some i => row.getD i none

/-- Positional access `check_row.iloc[i] if len(check_row) > i else ""`:
`ncols` is the length of the row Series (the frame's column count); an
out-of-range index yields the literal Python string `""`. -/
def fieldAt (ncols : Nat) (row : List Cell) (i : Nat) : Cell :=
  if i < ncols then row.getD i none else some ""

/-! ## Readers for the task-identity and catalog tables -/

/-- `read_task_info` (app.py lines 42-60): first data row of the
`任务说明` sheet yields the credit code and the date with `'-'` removed
and then stripped; empty table, missing column, or empty resulting date
raise (modelled as `Except.error`). -/
def read_task_info (df : Frame) : Except String (String × String) :=
  match df.rows with
  | [] => .error "「任务说明」sheet无有效数据"
  | first :: _ =>
    if "社会统一信用代码" ∈ df.cols ∧ "数据日期" ∈ df.cols then
      let credit_code := clean_cell_value (cellByName df first "社会统一信用代码")
      let data_date_raw := clean_cell_value (cellByName df first "数据日期")
      let data_date := pyStrip (removeDashes data_date_raw)
      if data_date = "" then .error "数据日期为空或格式错误"
      else .ok (credit_code, data_date)
    else .error "「任务说明」sheet缺少必要列"

/-- First-occurrence deduplication, the semantics of pandas
`drop_duplicates()` (keep `'first'`, order preserved). -/
def dedupFirst {α : Type} [DecidableEq α] : List α → List α
  | [] => []
  | x :: xs => x :: dedupFirst (xs.filter (fun y => decide (y ≠ x)))
termination_by l => l.length
decreasing_by
  simp only [List.length_cons]
  exact Nat.lt_succ_of_le (List.length_filter_le _ _)

/-- `read_business_info` (app.py lines 62-74): empty table yields the empty
list (with a warning); a missing required column raises; otherwise the
(form name, form code) pairs, deduplicated keeping the first occurrence. -/
def read_business_info (df : Frame) : Except String (List (Cell × Cell)) :=
  if df.rows.isEmpty then .ok []
  else if "业务表单名称" ∈ df.cols ∧ "业务表单英文名称" ∈ df.cols then
    .ok (dedupFirst (df.rows.map
      (fun r => (cellByName df r "业务表单名称", cellByName df r "业务表单英文名称"))))
  else .error "「业务说明」sheet缺少必要列"

/-- The caller's substitution of the synthetic default form when the
catalog is empty (app.py lines 205-206). -/
def businessListOrDefault (l : List (Cell × Cell)) : List (Cell × Cell) :=
  if l.isEmpty then [(some "默认表单", some "Default")] else l

/-! ## The validation-result index -/

/-- Grouping of the `校验结果` rows by the raw value of the `表单名称`
column (`df.groupby("表单名称", dropna=False)`): each distinct key, with
its rows in original order.  Key order does not matter to the program,
which only ever looks a group up by name. -/
def groupByName (df : Frame) : List (Cell × List (List Cell)) :=
  (dedupFirst (df.rows.map (fun r => cellByName df r "表单名称"))).map
    (fun k => (k, df.rows.filter (fun r => cellByName df r "表单名称" == k)))

/-- `business_name in check_group.groups` / `get_group`: the rows grouped
under the string `name`, if that key is present. -/
def lookupGroup (groups : List (Cell × List (List Cell))) (name : String) :
    Option (List (List Cell)) :=
  (groups.find? (fun g => g.1 == some name)).map (fun g => g.2)

/-- Construction of the check-result index in `main` (app.py lines
209-218): no `校验结果` sheet, a sheet without the `表单名称` column, or an
empty sheet all yield no index; otherwise the rows are grouped by form
name.  Also returns the column count of the sheet, the length of each of
its row Series. -/
def build_check_group (wb : Workbook) :
    Option (List (Cell × List (List Cell))) × Nat :=
  match lookupSheet wb "校验结果" with
  | none => (none, 0)
  | some df =>
    if "表单名称" ∈ df.cols then
      if df.rows.isEmpty then (none, df.cols.length)
      else (some (groupByName df), df.cols.length)
    else (none, df.cols.length)

/-! ## RecordBuilder: per-row processing (app.py lines 93-156) -/

/-- Outcome of processing one check row: a record appended to
`dat_strings` (with any warnings logged on the way), a skipped row with
its warning, or an uncaught exception (which aborts the job). -/
inductive RowResult where
  | emit : String → List String → RowResult
  | skip : String → RowResult
  | crash : String → RowResult
deriving DecidableEq

/-- Whether the row outcome is an emitted record. -/
def RowResult.isEmit : RowResult → Bool
  | .emit _ _ => true
  | _ => false

/-- Whether the row outcome is an uncaught exception. -/
def RowResult.isCrash : RowResult → Bool
  | .crash _ => true
  | _ => false

/-- Outcome of the J-column JSON phase (app.py lines 101-122). -/
inductive JsonOutcome where
  | jskip : String → JsonOutcome
  | jcrash : String → JsonOutcome
  | jtarget : String → JsonOutcome
deriving DecidableEq

/-- The J-column JSON phase: decode the cleaned J value with the given
decoder (`json.loads`, an external collaborator passed as a parameter),
skip on a decode failure or a falsy result, extract the first key's value
from an object (a non-object raises `AttributeError` at
`json_obj.keys()`), require a non-empty array, and stringify-and-strip
its first element. -/
def json_phase (jsonLoads : String → Option JsonVal) (j : String) : JsonOutcome :=
  match jsonLoads j with
  | none => .jskip "警告：JSON解析失败，跳过该行"
  | some v =>
    if pyTruthy v then
      match v with
      | .jobj kvs =>
        match kvs with
        | [] => .jskip "警告：JSON为空对象，跳过该行"
        | (_, firstVal) :: _ =>
          match firstVal with
          | .jarr (x :: _) => .jtarget (pyStrip (pyStrVal x))
          | _ => .jskip "警告：JSON value不是非空数组，跳过该行"
      | _ => .jcrash "AttributeError: object has no attribute keys"
    else .jskip "警告：JSON为空对象，跳过该行"

/-- Payload of a matched sample row: columns from index 3 on, cleaned and
joined with the fixed delimiter (app.py lines 149-150). -/
def sample_row_payload (row : List Cell) : String :=
  joinWith "@&@" ((row.drop 3).map clean_cell_value)

/-- The sample-sheet phase (app.py lines 124-156).  A missing sheet makes
`pd.read_excel` raise; the handler logs a warning and control falls
through to the append, so the record is still emitted with an empty
payload.  An empty sheet, a sheet with fewer than 3 columns, and a key
with no matching row each skip the row inside the `try` block.  The first
matching row wins. -/
def sample_phase (wb : Workbook) (business_name target part1 : String) :
    RowResult :=
  match lookupSheet wb ("示例数据_" ++ business_name) with
  | none => .emit part1 ["警告：读取示例数据失败"]
  | some df =>
    if df.rows.isEmpty then .skip "警告：示例数据sheet无有效数据"
    else if df.cols.length < 3 then .skip "警告：示例数据sheet缺少C列"
    else
      match df.rows.find? (fun r => clean_cell_value (r.getD 2 none) == target) with
      | none => .skip ("警告：示例数据sheet中未找到C列='" ++ target ++ "'的行")
      | some r => .emit (part1 ++ sample_row_payload r) []

/-- Processing of one check row (app.py lines 93-156): build `part1` from
positional fields 2, 8, 6; an empty cleaned J column skips the row;
otherwise the JSON phase and then the sample-sheet phase decide the
outcome. -/
def process_check_row (jsonLoads : String → Option JsonVal) (wb : Workbook)
    (ncols : Nat) (business_name : String) (row : List Cell) : RowResult :=
  let c_val := clean_cell_value (fieldAt ncols row 2)
  let i_val := clean_cell_value (fieldAt ncols row 8)
  let g_val := clean_cell_value (fieldAt ncols row 6)
  let part1 := "01|" ++ c_val ++ "|" ++ i_val ++ "|" ++ g_val ++ "|"
  let j_val := clean_cell_value (fieldAt ncols row 9)
  if j_val = "" then .skip "警告：J列无JSON数据，跳过该行"
  else
    match json_phase jsonLoads j_val with
    | .jskip m => .skip m
    | .jcrash m => .crash m
    | .jtarget t => sample_phase wb business_name t part1

/-- The per-form row loop: accumulate emitted records and log lines in row
order; an uncaught per-row exception aborts the whole loop. -/
def process_rows (jsonLoads : String → Option JsonVal) (wb : Workbook)
    (ncols : Nat) (business_name : String) :
    List (List Cell) → Except String (List String × List String)
  | [] => .ok ([], [])
  | r :: rs =>
    match process_check_row jsonLoads wb ncols business_name r with
    | .crash m => .error m
    | .skip m =>
      match process_rows jsonLoads wb ncols business_name rs with
      | .error e => .error e
      | .ok (ds, ls) => .ok (ds, m :: ls)
    | .emit s ws =>
      match process_rows jsonLoads wb ncols business_name rs with
      | .error e => .error e
      | .ok (ds, ls) => .ok (s :: ds, ws ++ ls)

/-- The first log line of `process_business_data`. -/
def headerLog (name en : String) : String :=
  "\n--- 处理业务表单：" ++ name ++ "（英文名称：" ++ en ++ "）---"

/-- `process_business_data` (app.py lines 76-159): clean the form's name
and code; with no index or no group for the name, return no records and a
single warning; otherwise process the group's rows in order. -/
def process_business_data (jsonLoads : String → Option JsonVal)
    (wb : Workbook) (business : Cell × Cell)
    (check_group : Option (List (Cell × List (List Cell)))) (ncols : Nat) :
    Except String (List String × List String) :=
  let business_name := clean_cell_value business.1
  let en := clean_cell_value business.2
  let header := headerLog business_name en
  let noGroup : Except String (List String × List String) :=
    .ok ([], [header, "警告：无匹配的校验结果数据，生成空dat文件"])
  match check_group with
  | none => noGroup
  | some groups =>
    match lookupGroup groups business_name with
    | none => noGroup
    | some rows =>
      match process_rows jsonLoads wb ncols business_name rows with
      | .error e => .error e
      | .ok (ds, ls) =>
        .ok (ds, header ::
          ("找到" ++ toString rows.length ++ "行匹配的校验结果数据") ::
          (ls ++ ["业务表单处理完成，共生成" ++ toString ds.length ++ "行数据"]))

/-! ## Artifact packaging (app.py lines 220-258) -/

/-- UTF-8 encoding of one character (byte values). -/
def utf8Char (c : Char) : List Nat :=
  let n := c.toNat
  if n < 0x80 then [n]
  else if n < 0x800 then [0xC0 + n / 0x40, 0x80 + n % 0x40]
  else if n < 0x10000 then
    [0xE0 + n / 0x1000, 0x80 + (n / 0x40) % 0x40, 0x80 + n % 0x40]
  else
    [0xF0 + n / 0x40000, 0x80 + (n / 0x1000) % 0x40,
     0x80 + (n / 0x40) % 0x40, 0x80 + n % 0x40]

/-- Python `s.encode("utf-8")`: the byte sequence of a string. -/
def encodeUtf8 (s : String) : List Nat := (s.data.map utf8Char).flatten

/-- Newline join: `"\n".join(dat_strings)` builds the data file's text. -/
def joinNL (l : List String) : String := joinWith "\n" l

/-- `get_bytes_md5` (app.py lines 34-40): empty bytes give the empty
string, otherwise the digest of the bytes.  The MD5 digest itself is the
abstract parameter `md5hex` (an external collaborator). -/
def get_bytes_md5 (md5hex : List Nat → String) (bytes_data : List Nat) : String :=
  if bytes_data.isEmpty then "" else md5hex bytes_data

/-- `line_count` (app.py line 237): the records whose stripped text is
non-empty. -/
def line_count (dat_strings : List String) : Nat :=
  (dat_strings.filter (fun s => !(stripList s.data).isEmpty)).length

/-- The base output name (app.py line 232). -/
def base_filename (credit_code en date : String) : String :=
  credit_code ++ "_" ++ en ++ "_CHK_" ++ date

/-- One form's packaged output: base name, data-file text and the five
log lines (app.py lines 227-247).  `create_time` is the formatted
timestamp taken at packaging time. -/
structure FormOutput where
  base : String
  datContent : String
  logLines : List String

/-- Packaging of one form (app.py lines 227-247): data text is the
newline join of the records; the log lines are the data-file name, the
digest of the data bytes, their length, the timestamp, and the count of
non-blank records. -/
def package_form (md5hex : List Nat → String) (credit_code en date : String)
    (dat_strings : List String) (create_time : String) : FormOutput :=
  let dat_content := joinNL dat_strings
  let dat_bytes := encodeUtf8 dat_content
  let base := base_filename credit_code en date
  { base := base
    datContent := dat_content
    logLines := [base ++ ".dat",
                 get_bytes_md5 md5hex dat_bytes,
                 toString dat_bytes.length,
                 create_time,
                 toString (line_count dat_strings)] }

/-- The log file's text: the five lines joined by newlines. -/
def log_content (o : FormOutput) : String := joinNL o.logLines

/-! ## The top-level pipeline (app.py lines 184-267) -/

/-- The per-form loop of `main` (app.py lines 221-258): process each
business form in catalog order and package its records; an uncaught
exception aborts the run. -/
def run_forms (md5hex : List Nat → String)
    (jsonLoads : String → Option JsonVal) (wb : Workbook)
    (credit_code date : String)
    (check_group : Option (List (Cell × List (List Cell)))) (ncols : Nat)
    (create_time : String) :
    List (Cell × Cell) → Except String (List FormOutput)
  | [] => .ok []
  | b :: bs =>
    match process_business_data jsonLoads wb b check_group ncols with
    | .error e => .error e
    | .ok (ds, _) =>
      match run_forms md5hex jsonLoads wb credit_code date check_group ncols
          create_time bs with
      | .error e => .error e
      | .ok rest =>
        .ok (package_form md5hex credit_code (clean_cell_value b.2) date ds
          create_time :: rest)

/-- The whole pipeline (app.py lines 184-267): require the `任务说明` and
`业务说明` sheets, read the task identity and the catalog (substituting
the default form for an empty catalog), build the check index, then
process and package every form.  `create_time` stands for the wall-clock
timestamps taken during the run. -/
def run_pipeline (md5hex : List Nat → String)
    (jsonLoads : String → Option JsonVal) (wb : Workbook)
    (create_time : String) : Except String (List FormOutput) :=
  if "任务说明" ∈ sheetNames wb ∧ "业务说明" ∈ sheetNames wb then
    match lookupSheet wb "任务说明" with
    | none => .error "缺少必需的sheet"
    | some df_task =>
      match lookupSheet wb "业务说明" with
      | none => .error "缺少必需的sheet"
      | some df_business =>
        match read_task_info df_task with
        | .error e => .error e
        | .ok (credit_code, date) =>
          match read_business_info df_business with
          | .error e => .error e
          | .ok bl =>
            run_forms md5hex jsonLoads wb credit_code date
              (build_check_group wb).1 (build_check_group wb).2 create_time
              (businessListOrDefault bl)
  else .error "缺少必需的sheet"

/-! ## Line counting in the produced data file -/

/-- Split a character list at every newline (`text.split "\n"`). -/
def splitLinesL : List Char → List (List Char)
  | [] => [[]]
  | c :: cs =>
    if c = '\n' then [] :: splitLinesL cs
    else
      match splitLinesL cs with
      | [] => [[c]]
      | l :: ls => (c :: l) :: ls

/-- The number of non-blank lines of a text: lines whose stripped content
is non-empty. -/
def countNonBlankLines (s : String) : Nat :=
  ((splitLinesL s.data).filter (fun l => !(stripList l).isEmpty)).length

/-- Whether a log line is a warning (it begins with `警告`). -/
def isWarning (s : String) : Bool :=
  match s.data with
  | c1 :: c2 :: _ => c1 = '警' && c2 = '告'
  | _ => false

/-- Whether an `Except` result is an error. -/
def isErr {α : Type} : Except String α → Bool
  | .error _ => true
  | .ok _ => false

example : countNonBlankLines "a\nb" = 2 := by decide
example : countNonBlankLines "" = 0 := by decide
example : countNonBlankLines "a\n \nb" = 2 := by decide
example : line_count ["a", " ", "b"] = 2 := by decide
example : isWarning "警告：x" = true := by decide
example : isWarning "--- x" = false := by decide

/-! ## Shared helper lemmas -/

theorem stripList_subset (l : List Char) : stripList l ⊆ l := by
  intro c hc
  obtain ⟨pre, suf, heq, -, -⟩ := stripList_split l
  rw [heq]
  exact List.mem_append.mpr (Or.inl (List.mem_append.mpr (Or.inr hc)))

theorem not_dash_removeDashes (s : String) : '-' ∉ (removeDashes s).data := by
  intro h
  simp only [removeDashes, List.mem_filter] at h
  simp at h

theorem not_dash_strip_removeDashes (s : String) :
    '-' ∉ (pyStrip (removeDashes s)).data := by
  intro h
  exact not_dash_removeDashes s (stripList_subset _ h)

/-! ## C3: the cell normalizer -/

/-- C3 (counterexample): the claim says `normalize v = ""` iff `v` is
missing/NaN/empty-string, but the whitespace-only cell `" "` also cleans
to `""` while being neither missing nor the empty string. -/
theorem claim_C3_counterexample :
    clean_cell_value (some " ") = "" ∧ (some " " : Cell) ≠ none ∧
      (some " " : Cell) ≠ some "" := by
  refine ⟨by decide, by decide, by decide⟩

/-- C3 (amended): `clean_cell_value v = ""` iff `v` is missing/NaN, the
empty string, or a whitespace-only string; for every string cell the
result is the stripped string, whose characters sit inside the original
between whitespace-only margins; the function is total by construction. -/
theorem claim_C3_amended :
    (∀ v : Cell, clean_cell_value v = "" ↔
      v = none ∨ ∃ s, v = some s ∧ pyStrip s = "")
    ∧ (∀ s : String, clean_cell_value (some s) = pyStrip s)
    ∧ (∀ s : String, ∃ pre suf, s.data = pre ++ (pyStrip s).data ++ suf ∧
        pre.all pySpace = true ∧ suf.all pySpace = true) := by
  refine ⟨?_, ?_, ?_⟩
  · intro v
    match v with
    | none => simp [clean_cell_value]
    | some s =>
      by_cases hs : s = ""
      · subst hs
        constructor
        · intro _
          exact Or.inr ⟨"", rfl, rfl⟩
        · intro _
          rfl
      · simp only [clean_cell_value, if_neg hs]
        constructor
        · intro h
          exact Or.inr ⟨s, rfl, h⟩
        · rintro (h | ⟨s', hs', hstrip⟩)
          · exact absurd h (Option.some_ne_none s)
          · exact (Option.some.inj hs') ▸ hstrip
  · intro s
    by_cases hs : s = ""
    · subst hs
      rfl
    · simp only [clean_cell_value, if_neg hs]
  · intro s
    obtain ⟨pre, suf, heq, hp, hsuf⟩ := stripList_sandwich s.data
    exact ⟨pre, suf, heq, hp, hsuf⟩

/-- C3 (witness). -/
theorem claim_C3_witness :
    clean_cell_value (some "  x y  ") = pyStrip "  x y  " :=
  claim_C3_amended.2.1 "  x y  "

/-! ## C4: the five-line log file -/

/-- C4: the log text (and hence its UTF-8 bytes) of every form's artifact
is exactly the newline join of: the data-file name built from
`creditCode_englishCode_CHK_dataDate`, the digest of the data bytes
(empty string when they are empty), their decimal length, the timestamp,
and the decimal count of records with non-empty stripped text. -/
theorem claim_C4_theorem :
    ∀ (md5hex : List Nat → String) (credit_code en date create_time : String)
      (dat_strings : List String),
      (package_form md5hex credit_code en date dat_strings create_time).logLines.length = 5
      ∧ encodeUtf8 (log_content (package_form md5hex credit_code en date dat_strings create_time)) =
        encodeUtf8 (joinNL
          [(credit_code ++ "_" ++ en ++ "_CHK_" ++ date) ++ ".dat",
           (if encodeUtf8 (joinNL dat_strings) = [] then ""
            else md5hex (encodeUtf8 (joinNL dat_strings))),
           toString (encodeUtf8 (joinNL dat_strings)).length,
           create_time,
           toString ((dat_strings.filter (fun s => !(stripList s.data).isEmpty)).length)]) := by
  intro md5hex credit_code en date create_time dat_strings
  constructor
  · rfl
  · cases h : encodeUtf8 (joinNL dat_strings) with
    | nil =>
      simp [package_form, log_content, base_filename, get_bytes_md5, line_count, h]
    | cons b bs =>
      simp [package_form, log_content, base_filename, get_bytes_md5, line_count, h]

/-! ## C10: short rows are skipped, never an index error -/

/-- C10: a check row whose Series has at most 9 entries is processed with
every out-of-range positional field read as the empty string; in
particular its J field is empty, so the row is skipped with the J-column
warning and no error is raised. -/
theorem claim_C10_theorem :
    ∀ (jsonLoads : String → Option JsonVal) (wb : Workbook) (ncols : Nat)
      (business_name : String) (row : List Cell),
      ncols ≤ 9 →
      process_check_row jsonLoads wb ncols business_name row =
        .skip "警告：J列无JSON数据，跳过该行"
      ∧ (∀ i, ncols ≤ i → fieldAt ncols row i = some "" ∧
          clean_cell_value (fieldAt ncols row i) = "") := by
  intro jsonLoads wb ncols business_name row h
  constructor
  · have h9 : ¬ (9 < ncols) := by omega
    simp [process_check_row, fieldAt, h9, clean_cell_value]
  · intro i hi
    have hni : ¬ (i < ncols) := by omega
    exact ⟨by simp [fieldAt, hni], by simp [fieldAt, hni, clean_cell_value]⟩

/-- C10 (witness). -/
theorem claim_C10_witness :
    process_check_row parseJson [] 4 "表单A"
      [some "a", some "b", some "c", some "d"] =
      .skip "警告：J列无JSON数据，跳过该行" :=
  (claim_C10_theorem parseJson [] 4 "表单A"
    [some "a", some "b", some "c", some "d"] (by decide)).1

/-! ## C5: the task-identity reader -/

/-- The frame used to refute C5 as stated: both required columns present,
one data row, date cell `" - - "`. -/
def c5Frame : Frame :=
  ⟨["社会统一信用代码", "数据日期"], [[some "X", some " - - "]]⟩

/-- C5 (counterexample): on `c5Frame` the reader fails although neither
column is absent, the table has a row, and the date with its `'-'`
characters stripped is `" "`, which is not empty: the code additionally
strips whitespace after removing the dashes and only then tests for
emptiness. -/
theorem claim_C5_counterexample :
    isErr (read_task_info c5Frame) = true
    ∧ "社会统一信用代码" ∈ c5Frame.cols
    ∧ "数据日期" ∈ c5Frame.cols
    ∧ c5Frame.rows ≠ []
    ∧ removeDashes (clean_cell_value
        (cellByName c5Frame [some "X", some " - - "] "数据日期")) ≠ "" := by
  refine ⟨by decide, by decide, by decide, by decide, by decide⟩

/-- C5 (amended): the reader fails exactly when a required column is
absent, the table has no rows, or the first row's date, cleaned, with
`'-'` removed and then whitespace-stripped, is empty; on success the date
contains no `'-'` and the credit code is the cleaned credit cell. -/
theorem claim_C5_amended :
    ∀ df : Frame,
      (df.rows = [] → isErr (read_task_info df) = true)
      ∧ (∀ r rs, df.rows = r :: rs →
          ((isErr (read_task_info df) = true) ↔
            ("社会统一信用代码" ∉ df.cols ∨ "数据日期" ∉ df.cols ∨
              pyStrip (removeDashes
                (clean_cell_value (cellByName df r "数据日期"))) = ""))
          ∧ (∀ c d, read_task_info df = .ok (c, d) →
              '-' ∉ d.data
              ∧ c = clean_cell_value (cellByName df r "社会统一信用代码")
              ∧ d = pyStrip (removeDashes
                  (clean_cell_value (cellByName df r "数据日期"))))) := by
  intro df
  rcases df with ⟨cols, rows⟩
  constructor
  · intro h
    subst h
    rfl
  · intro r rs h
    subst h
    by_cases hm : "社会统一信用代码" ∈ cols ∧ "数据日期" ∈ cols
    · by_cases hd : pyStrip (removeDashes
          (clean_cell_value (cellByName ⟨cols, r :: rs⟩ r "数据日期"))) = ""
      · constructor
        · simp only [read_task_info, if_pos hm, if_pos hd]
          simp [isErr, hd]
        · intro c d hok
          simp only [read_task_info, if_pos hm, if_pos hd] at hok
          exact Except.noConfusion hok
      · constructor
        · simp only [read_task_info, if_pos hm, if_neg hd]
          simp [isErr, hm.1, hm.2, hd]
        · intro c d hok
          simp only [read_task_info, if_pos hm, if_neg hd] at hok
          have hc := congrArg (fun p => p.1) (Except.ok.inj hok)
          have hdd := congrArg (fun p => p.2) (Except.ok.inj hok)
          simp only at hc hdd
          subst hc
          subst hdd
          exact ⟨not_dash_strip_removeDashes _, rfl, rfl⟩
    · constructor
      · simp only [read_task_info, if_neg hm]
        simp only [isErr, true_iff]
        rcases Decidable.not_and_iff_or_not.mp hm with h1 | h1
        · exact Or.inl h1
        · exact Or.inr (Or.inl h1)
      · intro c d hok
        simp only [read_task_info, if_neg hm] at hok
        exact Except.noConfusion hok

/-- C5 (witness). -/
theorem claim_C5_witness :
    isErr (read_task_info ⟨["社会统一信用代码", "数据日期"], []⟩) = true :=
  (claim_C5_amended ⟨["社会统一信用代码", "数据日期"], []⟩).1 rfl

/-! ## C6: the business catalog reader -/

/-- C6: the catalog reader deduplicates by the (name, code) pair keeping
first-seen order — on rows `[(A,X),(A,X),(B,Y)]` it returns exactly
`[(A,X),(B,Y)]` — an empty table yields the empty list for which the
caller substitutes the single default form, and a non-empty table with
the required columns never fails. -/
theorem claim_C6_theorem :
    (∀ a x b y : String, (a, x) ≠ (b, y) →
      read_business_info ⟨["业务表单名称", "业务表单英文名称"],
        [[some a, some x], [some a, some x], [some b, some y]]⟩ =
        .ok [(some a, some x), (some b, some y)])
    ∧ read_business_info ⟨["业务表单名称", "业务表单英文名称"], []⟩ = .ok []
    ∧ businessListOrDefault [] = [(some "默认表单", some "Default")]
    ∧ (∀ rows, rows ≠ [] →
        isErr (read_business_info
          ⟨["业务表单名称", "业务表单英文名称"], rows⟩) = false) := by
  refine ⟨?_, rfl, rfl, ?_⟩
  · intro a x b y h
    have hq : ((some b, some y) : Cell × Cell) ≠ (some a, some x) := by
      intro heq
      rw [Prod.mk.injEq] at heq
      exact h (by
        rw [Prod.mk.injEq]
        exact ⟨(Option.some.inj heq.1).symm, (Option.some.inj heq.2).symm⟩)
    have hmap : read_business_info ⟨["业务表单名称", "业务表单英文名称"],
        [[some a, some x], [some a, some x], [some b, some y]]⟩ =
        .ok (dedupFirst [(some a, some x), (some a, some x), (some b, some y)]) := rfl
    rw [hmap]
    simp [dedupFirst, List.filter_cons, hq]
  · intro rows hr
    match rows with
    | [] => exact absurd rfl hr
    | r :: rs => rfl

/-- C6 (witness). -/
theorem claim_C6_witness :
    read_business_info ⟨["业务表单名称", "业务表单英文名称"],
      [[some "A", some "X"], [some "A", some "X"], [some "B", some "Y"]]⟩ =
      .ok [(some "A", some "X"), (some "B", some "Y")] :=
  claim_C6_theorem.1 "A" "X" "B" "Y" (by decide)

/-! ## C7: a missing group yields an empty artifact, not an error -/

theorem isWarning_headerLog (n e : String) : isWarning (headerLog n e) = false := rfl

/-- C7: when there is no validation-result index, or no group for the
form's cleaned name, `process_business_data` returns zero records with
exactly the header line and one warning (so exactly one warning event),
and packaging those zero records gives a data file that is empty bytes. -/
theorem claim_C7_theorem :
    ∀ (jsonLoads : String → Option JsonVal) (wb : Workbook)
      (business : Cell × Cell)
      (check_group : Option (List (Cell × List (List Cell)))) (ncols : Nat)
      (md5hex : List Nat → String) (credit date t : String),
      (check_group = none ∨ ∃ g, check_group = some g ∧
        lookupGroup g (clean_cell_value business.1) = none) →
      process_business_data jsonLoads wb business check_group ncols =
        .ok ([], [headerLog (clean_cell_value business.1) (clean_cell_value business.2),
                  "警告：无匹配的校验结果数据，生成空dat文件"])
      ∧ (([headerLog (clean_cell_value business.1) (clean_cell_value business.2),
           "警告：无匹配的校验结果数据，生成空dat文件"].filter isWarning).length = 1)
      ∧ (package_form md5hex credit (clean_cell_value business.2) date [] t).datContent = ""
      ∧ encodeUtf8 (package_form md5hex credit (clean_cell_value business.2) date [] t).datContent = [] := by
  intro jsonLoads wb business check_group ncols md5hex credit date t h
  refine ⟨?_, ?_, rfl, rfl⟩
  · rcases h with h | ⟨g, hg, hlook⟩
    · subst h
      rfl
    · subst hg
      simp only [process_business_data, hlook]
  · simp [List.filter_cons, isWarning_headerLog]
    rfl

/-- C7 (witness). -/
theorem claim_C7_witness :
    process_business_data parseJson [] (some "表单A", some "FormA") none 0 =
      .ok ([], [headerLog "表单A" "FormA",
                "警告：无匹配的校验结果数据，生成空dat文件"]) := by
  have h := (claim_C7_theorem parseJson [] (some "表单A", some "FormA") none 0
    (fun _ => "") "c" "d" "t" (Or.inl rfl)).1
  simpa using h

/-! ## C1: when a DAT record is emitted -/

/-- A well-formed check row whose JSON payload points at sample row "3". -/
def c1Row : List Cell :=
  [none, none, some "c", none, none, none, some "g", none, some "i",
   some "\x7b\"k\":[\"3\"]\x7d"]

/-- C1 (counterexample): with no sample sheet in the workbook (so the
sheet load fails), the claim says the row is skipped and no record
emitted; the code logs the warning but still appends the record built
from `part1` with an empty payload. -/
theorem claim_C1_counterexample :
    process_check_row parseJson [] 10 "表单A" c1Row =
      .emit "01|c|i|g|" ["警告：读取示例数据失败"]
    ∧ lookupSheet [] "示例数据_表单A" = none := by
  refine ⟨by decide, rfl⟩

/-- Emission characterization of the sample phase, shared shape of the
row-level characterization. -/
theorem sample_phase_isEmit (wb : Workbook) (n t p : String) :
    (sample_phase wb n t p).isEmit = true ↔
      lookupSheet wb ("示例数据_" ++ n) = none ∨
      ∃ df r, lookupSheet wb ("示例数据_" ++ n) = some df ∧
        df.rows ≠ [] ∧ ¬ df.cols.length < 3 ∧
        df.rows.find? (fun r2 => clean_cell_value (r2.getD 2 none) == t) = some r := by
  cases hl : lookupSheet wb ("示例数据_" ++ n) with
  | none => simp [sample_phase, hl, RowResult.isEmit]
  | some df =>
    simp only [sample_phase, hl]
    by_cases h1 : df.rows.isEmpty
    · have hrows : df.rows = [] := by
        cases hr : df.rows with
        | nil => rfl
        | cons a as => rw [hr] at h1; simp at h1
      simp [h1, RowResult.isEmit, hrows]
    · have hne : df.rows ≠ [] := by
        intro hr
        rw [hr] at h1
        simp at h1
      by_cases h2 : df.cols.length < 3
      · simp [h1, h2, RowResult.isEmit, hne]
      · cases h3 : df.rows.find? (fun r2 => clean_cell_value (r2.getD 2 none) == t) with
        | none =>
          simp [h1, h2, h3, RowResult.isEmit, hne]
          intro _ x hx
          have h3a := h3
          simp only [List.getD_eq_getElem?_getD] at h3a
          rw [h3a] at hx
          exact Option.noConfusion hx
        | some r =>
          simp [h1, h2, h3, RowResult.isEmit, hne]
          have h3a := h3
          simp only [List.getD_eq_getElem?_getD] at h3a
          exact ⟨Nat.not_lt.mp h2, r, h3a⟩

/-- C1 (amended): per check row, an empty sample sheet, a sheet with
fewer than 3 columns, and a key without a matching sample row each skip
the row with a warning and emit nothing — but a failed sheet load (sheet
missing) logs a warning and still emits the record with an empty payload.
Hence a record is emitted exactly when the JSON phase produced a target
key and either a matching sample row exists or the sheet load failed. -/
theorem claim_C1_amended :
    ∀ (wb : Workbook) (business_name target part1 : String) (ncols : Nat)
      (row : List Cell) (jsonLoads : String → Option JsonVal),
      (lookupSheet wb ("示例数据_" ++ business_name) = none →
        sample_phase wb business_name target part1 =
          .emit part1 ["警告：读取示例数据失败"])
      ∧ (∀ df, lookupSheet wb ("示例数据_" ++ business_name) = some df →
          (df.rows = [] → sample_phase wb business_name target part1 =
            .skip "警告：示例数据sheet无有效数据")
          ∧ (df.rows ≠ [] → df.cols.length < 3 →
              sample_phase wb business_name target part1 =
                .skip "警告：示例数据sheet缺少C列")
          ∧ (df.rows ≠ [] → ¬ df.cols.length < 3 →
              df.rows.find?
                (fun r2 => clean_cell_value (r2.getD 2 none) == target) = none →
              sample_phase wb business_name target part1 =
                .skip ("警告：示例数据sheet中未找到C列='" ++ target ++ "'的行"))
          ∧ (∀ r, df.rows ≠ [] → ¬ df.cols.length < 3 →
              df.rows.find?
                (fun r2 => clean_cell_value (r2.getD 2 none) == target) = some r →
              sample_phase wb business_name target part1 =
                .emit (part1 ++ sample_row_payload r) []))
      ∧ ((process_check_row jsonLoads wb ncols business_name row).isEmit = true ↔
          ∃ t, clean_cell_value (fieldAt ncols row 9) ≠ "" ∧
            json_phase jsonLoads (clean_cell_value (fieldAt ncols row 9)) = .jtarget t ∧
            (lookupSheet wb ("示例数据_" ++ business_name) = none ∨
             ∃ df r2, lookupSheet wb ("示例数据_" ++ business_name) = some df ∧
               df.rows ≠ [] ∧ ¬ df.cols.length < 3 ∧
               df.rows.find?
                 (fun r3 => clean_cell_value (r3.getD 2 none) == t) = some r2)) := by
  intro wb business_name target part1 ncols row jsonLoads
  refine ⟨?_, ?_, ?_⟩
  · intro hl
    simp [sample_phase, hl]
  · intro df hl
    have hEmpty : ∀ (h : df.rows = []), df.rows.isEmpty = true := by
      intro h
      simp [h]
    have hNonempty : df.rows ≠ [] → df.rows.isEmpty = false := by
      intro h
      cases hr : df.rows with
      | nil => exact absurd hr h
      | cons a as => simp
    refine ⟨?_, ?_, ?_, ?_⟩
    · intro h
      simp [sample_phase, hl, hEmpty h]
    · intro h h2
      simp [sample_phase, hl, hNonempty h, h2]
    · intro h h2 h3
      simp only [List.getD_eq_getElem?_getD] at h3
      simp [sample_phase, hl, hNonempty h, h2, h3]
    · intro r h h2 h3
      simp only [List.getD_eq_getElem?_getD] at h3
      simp [sample_phase, hl, hNonempty h, h2, h3]
  · by_cases hj : clean_cell_value (fieldAt ncols row 9) = ""
    · simp [process_check_row, hj, RowResult.isEmit]
    · cases hjp : json_phase jsonLoads (clean_cell_value (fieldAt ncols row 9)) with
      | jskip m => simp [process_check_row, hj, hjp, RowResult.isEmit]
      | jcrash m => simp [process_check_row, hj, hjp, RowResult.isEmit]
      | jtarget t0 =>
        simp only [process_check_row, hjp]
        rw [if_neg hj]
        rw [sample_phase_isEmit]
        constructor
        · intro h
          exact ⟨t0, hj, rfl, h⟩
        · rintro ⟨t, -, ht, h⟩
          injection ht with ht2
          subst ht2
          exact h

/-- C1 (witness). -/
theorem claim_C1_witness :
    sample_phase [] "表单A" "3" "01|c|i|g|" =
      .emit "01|c|i|g|" ["警告：读取示例数据失败"] :=
  (claim_C1_amended [] "表单A" "3" "01|c|i|g|" 10 c1Row parseJson).1 rfl

/-! ## C2: which rows abort the job -/

/-- The sample phase never raises: every branch emits or skips. -/
theorem sample_phase_not_crash (wb : Workbook) (n t p : String) :
    (sample_phase wb n t p).isCrash = false := by
  cases hl : lookupSheet wb ("示例数据_" ++ n) with
  | none => simp [sample_phase, hl, RowResult.isCrash]
  | some df =>
    simp only [sample_phase, hl]
    by_cases h1 : df.rows.isEmpty
    · simp [h1, RowResult.isCrash]
    · by_cases h2 : df.cols.length < 3
      · simp [h1, h2, RowResult.isCrash]
      · cases h3 : df.rows.find? (fun r2 => clean_cell_value (r2.getD 2 none) == t) with
        | none => simp [h1, h2, h3, RowResult.isCrash]
        | some r => simp [h1, h2, h3, RowResult.isCrash]

/-- A check row carrying the truthy non-object JSON text `"5"`. -/
def c2Row : List Cell :=
  [none, none, some "c", none, none, none, some "g", none, some "i", some "5"]

/-- C2 (counterexample): a row whose J field is the valid JSON text `"5"`
(truthy, not an object) makes the row processing raise at
`json_obj.keys()`; the error escapes `process_business_data`, aborting
the form and the job, against the claim that every row either emits or
skips. -/
theorem claim_C2_counterexample :
    isErr (process_business_data parseJson [] (some "A", some "E")
      (some [(some "A", [c2Row])]) 10) = true := by decide

/-- C2 (amended): processing a row raises (and aborts the job) exactly
when its cleaned J field is non-empty and parses to a truthy non-object
JSON value; every other row either emits a record or skips just itself,
so a batch with no such row never errors. -/
theorem claim_C2_amended :
    ∀ (wb : Workbook) (ncols : Nat) (business_name : String) (row : List Cell)
      (jsonLoads : String → Option JsonVal),
      ((process_check_row jsonLoads wb ncols business_name row).isCrash = true ↔
        (clean_cell_value (fieldAt ncols row 9) ≠ "" ∧
         ∃ v, jsonLoads (clean_cell_value (fieldAt ncols row 9)) = some v ∧
           pyTruthy v = true ∧ v.isObj = false))
      ∧ (∀ rows,
          (∀ r ∈ rows,
            (process_check_row jsonLoads wb ncols business_name r).isCrash = false) →
          isErr (process_rows jsonLoads wb ncols business_name rows) = false) := by
  intro wb ncols business_name row jsonLoads
  constructor
  · by_cases hj : clean_cell_value (fieldAt ncols row 9) = ""
    · simp [process_check_row, hj, RowResult.isCrash]
    · cases hp : jsonLoads (clean_cell_value (fieldAt ncols row 9)) with
      | none =>
        have hlhs : (process_check_row jsonLoads wb ncols business_name row).isCrash = false := by
          simp only [process_check_row]
          rw [if_neg hj]
          simp [json_phase, hp, RowResult.isCrash]
        rw [hlhs]
        constructor
        · intro hc
          exact Bool.noConfusion hc
        · rintro ⟨-, v2, hv2, -, -⟩
          exact Option.noConfusion hv2
      | some v =>
        cases ht : pyTruthy v with
        | false =>
          have hlhs : (process_check_row jsonLoads wb ncols business_name row).isCrash = false := by
            simp only [process_check_row]
            rw [if_neg hj]
            simp [json_phase, hp, ht, RowResult.isCrash]
          rw [hlhs]
          constructor
          · intro hc
            exact Bool.noConfusion hc
          · rintro ⟨-, v2, hv2, htv, -⟩
            injection hv2 with hveq
            subst hveq
            rw [ht] at htv
            exact Bool.noConfusion htv
        | true =>
          cases v with
          | jnull => exact absurd ht (by simp [pyTruthy])
          | jfloat b s =>
            have hlhs : (process_check_row jsonLoads wb ncols business_name row).isCrash = true := by
              simp only [process_check_row]
              rw [if_neg hj]
              simp [json_phase, hp, ht, RowResult.isCrash]
            rw [hlhs]
            constructor
            · intro _
              exact ⟨hj, .jfloat b s, rfl, ht, rfl⟩
            · intro _
              rfl
          | jbool b =>
            have hlhs : (process_check_row jsonLoads wb ncols business_name row).isCrash = true := by
              simp only [process_check_row]
              rw [if_neg hj]
              simp [json_phase, hp, ht, RowResult.isCrash]
            rw [hlhs]
            constructor
            · intro _
              exact ⟨hj, .jbool b, rfl, ht, rfl⟩
            · intro _
              rfl
          | jnum n =>
            have hlhs : (process_check_row jsonLoads wb ncols business_name row).isCrash = true := by
              simp only [process_check_row]
              rw [if_neg hj]
              simp [json_phase, hp, ht, RowResult.isCrash]
            rw [hlhs]
            constructor
            · intro _
              exact ⟨hj, .jnum n, rfl, ht, rfl⟩
            · intro _
              rfl
          | jstr s =>
            have hlhs : (process_check_row jsonLoads wb ncols business_name row).isCrash = true := by
              simp only [process_check_row]
              rw [if_neg hj]
              simp [json_phase, hp, ht, RowResult.isCrash]
            rw [hlhs]
            constructor
            · intro _
              exact ⟨hj, .jstr s, rfl, ht, rfl⟩
            · intro _
              rfl
          | jarr xs =>
            have hlhs : (process_check_row jsonLoads wb ncols business_name row).isCrash = true := by
              simp only [process_check_row]
              rw [if_neg hj]
              simp [json_phase, hp, ht, RowResult.isCrash]
            rw [hlhs]
            constructor
            · intro _
              exact ⟨hj, .jarr xs, rfl, ht, rfl⟩
            · intro _
              rfl
          | jobj kvs =>
            have hrhs : ¬ (clean_cell_value (fieldAt ncols row 9) ≠ "" ∧
                ∃ v2, some (JsonVal.jobj kvs) = some v2 ∧
                  pyTruthy v2 = true ∧ v2.isObj = false) := by
              rintro ⟨-, v2, hv2, -, hobj⟩
              injection hv2 with hveq
              subst hveq
              exact Bool.noConfusion hobj
            have hlhs : (process_check_row jsonLoads wb ncols business_name row).isCrash = false := by
              simp only [process_check_row]
              rw [if_neg hj]
              cases kvs with
              | nil => simp [json_phase, hp, ht, RowResult.isCrash]
              | cons kv rest =>
                rcases kv with ⟨k, fv⟩
                cases fv with
                | jarr xs =>
                  cases xs with
                  | nil => simp [json_phase, hp, ht, RowResult.isCrash]
                  | cons x xs2 =>
                    simp [json_phase, hp, ht, sample_phase_not_crash]
                | jnull => simp [json_phase, hp, ht, RowResult.isCrash]
                | jbool b2 => simp [json_phase, hp, ht, RowResult.isCrash]
                | jnum n2 => simp [json_phase, hp, ht, RowResult.isCrash]
                | jfloat b2 s2 => simp [json_phase, hp, ht, RowResult.isCrash]
                | jstr s2 => simp [json_phase, hp, ht, RowResult.isCrash]
                | jobj kvs2 => simp [json_phase, hp, ht, RowResult.isCrash]
            rw [hlhs]
            constructor
            · intro hc
              exact Bool.noConfusion hc
            · intro hr
              exact absurd hr hrhs
  · intro rows
    induction rows with
    | nil =>
      intro _
      rfl
    | cons r rs ih =>
      intro h
      have hr := h r (List.mem_cons_self r rs)
      have hrs := ih (fun r2 hr2 => h r2 (List.mem_cons_of_mem r hr2))
      cases hcr : process_check_row jsonLoads wb ncols business_name r with
      | crash m =>
        rw [hcr] at hr
        exact absurd hr (by simp [RowResult.isCrash])
      | skip m =>
        simp only [process_rows, hcr]
        cases hrest : process_rows jsonLoads wb ncols business_name rs with
        | error e =>
          rw [hrest] at hrs
          exact absurd hrs (by simp [isErr])
        | ok p => rfl
      | emit s ws =>
        simp only [process_rows, hcr]
        cases hrest : process_rows jsonLoads wb ncols business_name rs with
        | error e =>
          rw [hrest] at hrs
          exact absurd hrs (by simp [isErr])
        | ok p => rfl

/-- C2 (witness). -/
theorem claim_C2_witness :
    (process_check_row parseJson [] 10 "A" c2Row).isCrash = true :=
  (claim_C2_amended [] 10 "A" c2Row parseJson).1.mpr
    ⟨by decide, .jnum 5, rfl, rfl, rfl⟩

/-! ## C8: log line 5 versus non-blank lines of the data file -/

theorem splitLinesL_append (a rest l : List Char) (ls : List (List Char))
    (ha : '\n' ∉ a) (hr : splitLinesL rest = l :: ls) :
    splitLinesL (a ++ rest) = (a ++ l) :: ls := by
  induction a with
  | nil => simpa using hr
  | cons c a2 ih =>
    have hc : ¬ c = '\n' := by
      intro h
      exact ha (h ▸ List.mem_cons_self c a2)
    have ha2 : '\n' ∉ a2 := fun h => ha (List.mem_cons_of_mem c h)
    have ih2 := ih ha2
    simp only [List.cons_append, splitLinesL]
    rw [if_neg hc]
    simp only [List.append_eq]
    rw [ih2]

theorem count_nonblank_join (ds : List String)
    (hall : ∀ s ∈ ds, '\n' ∉ s.data) :
    countNonBlankLines (joinNL ds) = line_count ds := by
  induction ds with
  | nil => rfl
  | cons x xs ih =>
    cases xs with
    | nil =>
      have hx : '\n' ∉ x.data := hall x (List.mem_cons_self x [])
      have h1 : splitLinesL (x.data ++ []) = (x.data ++ []) :: [] :=
        splitLinesL_append x.data [] [] [] hx rfl
      rw [List.append_nil] at h1
      unfold countNonBlankLines line_count
      have hj : joinNL [x] = x := rfl
      rw [hj, h1]
      cases hb : (!(stripList x.data).isEmpty) with
      | false => simp [List.filter_cons, hb]
      | true => simp [List.filter_cons, hb]
    | cons y ys =>
      have hx : '\n' ∉ x.data := hall x (List.mem_cons_self x (y :: ys))
      have ih2 := ih (fun s hs => hall s (List.mem_cons_of_mem x hs))
      have hR := splitLinesL_append x.data ('\n' :: (joinNL (y :: ys)).data)
        [] (splitLinesL (joinNL (y :: ys)).data) hx rfl
      rw [List.append_nil] at hR
      have hdata : (joinNL (x :: y :: ys)).data =
          x.data ++ '\n' :: (joinNL (y :: ys)).data := by
        show (x ++ "\n" ++ joinWith "\n" (y :: ys)).data = _
        rw [data_append, data_append, List.append_assoc]
        rfl
      unfold countNonBlankLines at ih2 ⊢
      unfold line_count at ih2 ⊢
      rw [hdata, hR]
      cases hb : (!(stripList x.data).isEmpty) with
      | false => simp [List.filter_cons, hb, ih2]
      | true => simp [List.filter_cons, hb, ih2]

/-- The workbook and check row used to refute C8: the check row's C field
contains an interior newline, which `clean_cell_value` preserves into the
emitted record. -/
def c8Row : List Cell :=
  [none, none, some "a\nb", none, none, none, some "g", none, some "i",
   some "\x7b\"k\":[\"3\"]\x7d"]

/-- The sample sheet matching `c8Row`'s target key "3". -/
def c8Wb : Workbook :=
  [("示例数据_A", ⟨["h1", "h2", "h3", "h4"],
    [[some "x", some "y", some "3", some "v1"]]⟩)]

/-- C8 (counterexample): a reachable record containing an embedded
newline makes the data file hold two non-blank lines while log line 5
counts one record. -/
theorem claim_C8_counterexample :
    Except.map (fun p => p.1) (process_business_data parseJson c8Wb
      (some "A", some "E") (some [(some "A", [c8Row])]) 10) =
      .ok ["01|a\nb|i|g|v1"]
    ∧ line_count ["01|a\nb|i|g|v1"] = 1
    ∧ countNonBlankLines (joinNL ["01|a\nb|i|g|v1"]) = 2 := by
  refine ⟨rfl, by decide, by decide⟩

/-- C8 (amended): provided no record's text contains a newline character,
log line 5 (the count of records with non-empty stripped text) equals the
number of non-blank lines of the paired data file; a record with an
embedded newline can make the file hold more lines than the count. -/
theorem claim_C8_amended :
    ∀ (md5hex : List Nat → String) (credit en date t : String)
      (dat_strings : List String),
      (∀ s ∈ dat_strings, '\n' ∉ s.data) →
      (package_form md5hex credit en date dat_strings t).logLines.getD 4 "" =
        toString (countNonBlankLines
          (package_form md5hex credit en date dat_strings t).datContent) := by
  intro md5hex credit en date t ds hall
  have hcount : countNonBlankLines (joinNL ds) = line_count ds :=
    count_nonblank_join ds hall
  have hL : (package_form md5hex credit en date ds t).logLines.getD 4 "" =
      toString (line_count ds) := rfl
  have hD : (package_form md5hex credit en date ds t).datContent = joinNL ds := rfl
  rw [hL, hD, hcount]

/-- C8 (witness). -/
theorem claim_C8_witness :
    (package_form (fun _ => "") "c" "e" "d" ["01|a|b|c|", " "] "t").logLines.getD 4 "" =
      toString (countNonBlankLines
        (package_form (fun _ => "") "c" "e" "d" ["01|a|b|c|", " "] "t").datContent) :=
  claim_C8_amended (fun _ => "") "c" "e" "d" "t" ["01|a|b|c|", " "] (by decide)

/-! ## C9: record generation is deterministic, only the timestamp varies -/

/-- Everything of a form's output except the timestamp line: base name,
data text, data bytes, log lines 1-3 and log line 5. -/
def outputSansTime (o : FormOutput) :
    String × String × List Nat × List String × List String :=
  (o.base, o.datContent, encodeUtf8 o.datContent,
   o.logLines.take 3, o.logLines.drop 4)

theorem package_form_sans_time (md5hex : List Nat → String)
    (c en d : String) (ds : List String) (t1 t2 : String) :
    outputSansTime (package_form md5hex c en d ds t1) =
      outputSansTime (package_form md5hex c en d ds t2) := rfl

theorem run_forms_sans_time (md5hex : List Nat → String)
    (jsonLoads : String → Option JsonVal) (wb : Workbook)
    (c d : String) (cg : Option (List (Cell × List (List Cell)))) (ncols : Nat)
    (t1 t2 : String) (bl : List (Cell × Cell)) :
    Except.map (List.map outputSansTime)
        (run_forms md5hex jsonLoads wb c d cg ncols t1 bl) =
      Except.map (List.map outputSansTime)
        (run_forms md5hex jsonLoads wb c d cg ncols t2 bl) := by
  induction bl with
  | nil => rfl
  | cons b bs ih =>
    simp only [run_forms]
    cases hpb : process_business_data jsonLoads wb b cg ncols with
    | error e => rfl
    | ok p =>
      rcases p with ⟨ds, ls⟩
      cases h1 : run_forms md5hex jsonLoads wb c d cg ncols t1 bs with
      | error e =>
        cases h2 : run_forms md5hex jsonLoads wb c d cg ncols t2 bs with
        | error e2 =>
          rw [h1, h2] at ih
          exact ih
        | ok rest2 =>
          rw [h1, h2] at ih
          simp [Except.map] at ih
      | ok rest1 =>
        cases h2 : run_forms md5hex jsonLoads wb c d cg ncols t2 bs with
        | error e2 =>
          rw [h1, h2] at ih
          simp [Except.map] at ih
        | ok rest2 =>
          rw [h1, h2] at ih
          simp only [Except.map] at ih ⊢
          injection ih with ih2
          rw [List.map_cons, List.map_cons, ih2,
            package_form_sans_time md5hex c (clean_cell_value b.2) d ds t1 t2]

/-- C9: two runs of the whole pipeline on the same workbook, differing
only in the wall-clock timestamp, agree on every form's base name, data
text, data bytes (hence digest input and size) and on log lines 1-3 and
5; as the model is a pure function of the workbook, a re-run on an
unchanged workbook is byte-identical except for the timestamp line. -/
theorem claim_C9_theorem :
    ∀ (md5hex : List Nat → String) (jsonLoads : String → Option JsonVal)
      (wb : Workbook) (t1 t2 : String),
      Except.map (List.map outputSansTime) (run_pipeline md5hex jsonLoads wb t1) =
        Except.map (List.map outputSansTime) (run_pipeline md5hex jsonLoads wb t2) := by
  intro md5hex jsonLoads wb t1 t2
  unfold run_pipeline
  split
  · split
    · rfl
    · split
      · rfl
      · split
        · rfl
        · split
          · rfl
          · exact run_forms_sans_time _ _ _ _ _ _ _ t1 t2 _
  · rfl
